import Mathlib

/-!
# Verification of the `opensearch-doc` bulk ingestion pipeline

A shallow embedding of `cmd/bulk.go` (function `Bulk`): the per-line JSON
decode loop, identifier extraction/stripping, the retry configuration passed
to the OpenSearch client, and the final statistics report.

Modelling conventions:
* JSON values are `JVal`; Go decodes into `interface\x7b\x7d`, with objects as
  `map[string]interface\x7b\x7d`.  Maps are modelled as association lists with
  last-write-wins insertion (Go duplicate keys keep the last value), and
  serialization sorts keys as `json.Marshal` does.
* JSON numbers are modelled as exact integers (`Int`).  Go decodes numbers to
  `float64`, which represents integer literals exactly for absolute value up
  to 2^53; all claims about numbers are about this common integral range, and
  the parser rejects fractional/exponent literals (they occur in no claim).
* A failed Go type assertion (`f.(map[string]interface\x7b\x7d)` on a non-map) is
  modelled by the `RunResult.crashed` / `StepResult.crashed` constructors: the
  process terminates by runtime panic before any statistics report.
* `log.Fatalf` is modelled as printing its message and exiting with a
  non-zero status.
-/

/-- JSON values as decoded by `encoding/json` into `interface\x7b\x7d`.
Objects carry their fields as an association list. -/
inductive JVal where
  | null : JVal
  | bool : Bool → JVal
  | num : Int → JVal
  | str : String → JVal
  | arr : List JVal → JVal
  | obj : List (String × JVal) → JVal

/-! ## Decimal rendering and parsing of integers

`fmt.Sprintf("%v", x)` on a `float64` holding an integral value in the common
range prints its plain decimal digits (no fractional point, no exponent);
on a negative value it prints a leading minus sign.  `natCharsF` is the
digit renderer (fuel-structured so it computes by `rfl`), `parseDigitsAcc`
is the standard decimal reader used both by the JSON number parser and to
state the round-trip property. -/

/-- The ASCII digit character for `d < 10`. -/
def digitChar (d : Nat) : Char := Char.ofNat (48 + d)

/-- Decimal digit list of `n`, most significant first; `fuel` bounds the
recursion (any `fuel > n` is enough, since `n / 10 < n` for `n ≥ 10`). -/
def natCharsF : Nat → Nat → List Char
  | 0, _ => []
  | fuel + 1, n =>
    if n < 10 then [digitChar n]
    else natCharsF fuel (n / 10) ++ [digitChar (n % 10)]

/-- Decimal digit list of a natural number, as Go renders it. -/
def natChars (n : Nat) : List Char := natCharsF (n + 1) n

/-- Decimal character list of an integer, minus sign included. -/
def intChars (n : Int) : List Char :=
  if n < 0 then '-' :: natChars n.natAbs else natChars n.toNat

/-- Read decimal digits, accumulating their value; fails on a non-digit. -/
def parseDigitsAcc (acc : Nat) : List Char → Option Nat
  | [] => some acc
  | c :: cs => if c.isDigit then parseDigitsAcc (acc * 10 + (c.toNat - 48)) cs else none

/-- Read a nonempty all-digit character list as a natural number. -/
def parseNatChars (cs : List Char) : Option Nat :=
  match cs with
  | [] => none
  | _ :: _ => parseDigitsAcc 0 cs

/-- Read an optionally minus-signed decimal character list as an integer. -/
def parseIntChars : List Char → Option Int
  | '-' :: cs => (parseNatChars cs).map (fun n => -(n : Int))
  | cs => (parseNatChars cs).map (fun n => (n : Int))

/-! ## JSON parsing (`json.Unmarshal` into `interface\x7b\x7d`)

A recursive-descent parser over the line's characters, structured on a fuel
argument (`line length + 8` is always sufficient: every chained recursive
call follows consumption of at least one input character).  Objects are
built with last-write-wins key insertion as Go maps are.  Model
restriction: numbers with a fractional part or exponent are rejected
(Go decodes them to `float64`; no claim concerns them). -/

/-- The `\x7b` character. -/
def lbrace : Char := Char.ofNat 123

/-- The `\x7d` character. -/
def rbrace : Char := Char.ofNat 125

/-- Drop leading JSON whitespace. -/
def skipWs : List Char → List Char
  | [] => []
  | c :: cs => if c = ' ' || c = '\t' || c = '\n' || c = '\r' then skipWs cs else c :: cs

/-- Translation of a JSON string escape character. -/
def escChar (e : Char) : Option Char :=
  if e = 'n' then some '\n'
  else if e = 't' then some '\t'
  else if e = 'r' then some '\r'
  else if e = 'b' then some (Char.ofNat 8)
  else if e = 'f' then some (Char.ofNat 12)
  else if e = '"' || e = '\\' || e = '/' then some e
  else none

/-- Parse a JSON string body (after the opening quote), returning the
string's characters and the rest of the input. -/
def parseStringBody : List Char → Option (List Char × List Char)
  | [] => none
  | '"' :: cs => some ([], cs)
  | '\\' :: e :: cs =>
    match escChar e with
    | none => none
    | some ec => (parseStringBody cs).map (fun p => (ec :: p.1, p.2))
  | '\\' :: [] => none
  | c :: cs => (parseStringBody cs).map (fun p => (c :: p.1, p.2))

/-- Split off a maximal run of leading decimal digits. -/
def takeDigits : List Char → (List Char × List Char)
  | [] => ([], [])
  | c :: cs =>
    if c.isDigit then
      let p := takeDigits cs
      (c :: p.1, p.2)
    else ([], c :: cs)

/-- True when the input continues with a fractional part or exponent. -/
def isNumCont : List Char → Bool
  | [] => false
  | c :: _ => c = '.' || c = 'e' || c = 'E'

/-- Parse a JSON integer number token (model restriction: fractional and
exponent forms are rejected). -/
def parseNumber (cs : List Char) : Option (Int × List Char) :=
  match cs with
  | '-' :: rest =>
    let p := takeDigits rest
    if p.1.isEmpty || isNumCont p.2 then none
    else (parseDigitsAcc 0 p.1).map (fun n => (-(n : Int), p.2))
  | _ =>
    let p := takeDigits cs
    if p.1.isEmpty || isNumCont p.2 then none
    else (parseDigitsAcc 0 p.1).map (fun n => ((n : Int), p.2))

/-- Insert a key into a Go map: a duplicate key overwrites the old value. -/
def mapSet (m : List (String × JVal)) (k : String) (v : JVal) : List (String × JVal) :=
  m.filter (fun kv => kv.1 != k) ++ [(k, v)]

/-- `delete(documentMap, idField)`: remove a key from a Go map. -/
def mapDelete (m : List (String × JVal)) (k : String) : List (String × JVal) :=
  m.filter (fun kv => kv.1 != k)

/-- The parser's pending task: a value, an object's remaining fields, or an
array's remaining elements. -/
inductive PTask where
  | val : PTask
  | fields : List (String × JVal) → PTask
  | elems : List JVal → PTask

/-- Recursive-descent JSON parser, structurally recursive on fuel. -/
def parseF : Nat → PTask → List Char → Option (JVal × List Char)
  | 0, _, _ => none
  | fuel + 1, PTask.val, cs =>
    (match skipWs cs with
     | [] => none
     | c :: rest =>
       if c = lbrace then
         match skipWs rest with
         | [] => none
         | c2 :: rest2 =>
           if c2 = rbrace then some (JVal.obj [], rest2)
           else parseF fuel (PTask.fields []) (c2 :: rest2)
       else if c = '[' then
         match skipWs rest with
         | [] => none
         | c2 :: rest2 =>
           if c2 = ']' then some (JVal.arr [], rest2)
           else parseF fuel (PTask.elems []) (c2 :: rest2)
       else if c = '"' then
         (parseStringBody rest).map (fun p => (JVal.str (String.mk p.1), p.2))
       else if c = 't' then
         match rest with
         | 'r' :: 'u' :: 'e' :: rest2 => some (JVal.bool true, rest2)
         | _ => none
       else if c = 'f' then
         match rest with
         | 'a' :: 'l' :: 's' :: 'e' :: rest2 => some (JVal.bool false, rest2)
         | _ => none
       else if c = 'n' then
         match rest with
         | 'u' :: 'l' :: 'l' :: rest2 => some (JVal.null, rest2)
         | _ => none
       else if c = '-' || c.isDigit then
         (parseNumber (c :: rest)).map (fun p => (JVal.num p.1, p.2))
       else none)
  | fuel + 1, PTask.fields acc, cs =>
    (match skipWs cs with
     | '"' :: rest =>
       match parseStringBody rest with
       | none => none
       | some (key, rest2) =>
         match skipWs rest2 with
         | ':' :: rest3 =>
           match parseF fuel PTask.val rest3 with
           | none => none
           | some (v, rest4) =>
             let acc2 := mapSet acc (String.mk key) v
             match skipWs rest4 with
             | [] => none
             | ',' :: rest5 => parseF fuel (PTask.fields acc2) rest5
             | c :: rest5 => if c = rbrace then some (JVal.obj acc2, rest5) else none
         | _ => none
     | _ => none)
  | fuel + 1, PTask.elems acc, cs =>
    (match parseF fuel PTask.val cs with
     | none => none
     | some (v, rest) =>
       match skipWs rest with
       | ',' :: rest2 => parseF fuel (PTask.elems (acc ++ [v])) rest2
       | ']' :: rest2 => some (JVal.arr (acc ++ [v]), rest2)
       | _ => none)

/-- `json.Unmarshal([]byte(text), &f)`: parse one whole line as a JSON
value; trailing non-whitespace input is an error. -/
def parseJSON (s : String) : Option JVal :=
  match parseF (s.length + 8) PTask.val s.data with
  | some (v, rest) => if (skipWs rest).isEmpty then some v else none
  | none => none

/-! ## Serialization (`json.Marshal`) and `fmt.Sprintf("%v", ...)`

`json.Marshal` of a `map[string]interface\x7b\x7d` emits the object with its
keys in sorted (byte-wise) order and HTML-escapes `<`, `>`, `&` by default.
`%v` prints strings bare, booleans as `true`/`false`, numbers in decimal.
Both renderers are structured on a fuel argument bounding the recursion
depth so they compute by `rfl`.  The pipeline passes `line length + 8` as
fuel: every value it renders was decoded from the line, whose nesting depth
is at most the line's length, so the fuel floor is never reached there. -/

/-- Byte-wise (here: character-wise) ordering of strings, as Go compares
map keys when marshalling; identical on ASCII data. -/
def charsLe : List Char → List Char → Bool
  | a :: as, b :: bs =>
    if a.toNat = b.toNat then charsLe as bs
    else decide (a.toNat < b.toNat)
  | as, _ => as.isEmpty

/-- String ordering for marshalled object keys. -/
def strLe (a b : String) : Bool := charsLe a.data b.data

/-- Insert a field into a key-sorted field list. -/
def insertField (kv : String × JVal) : List (String × JVal) → List (String × JVal)
  | [] => [kv]
  | x :: xs => if strLe kv.1 x.1 then kv :: x :: xs else x :: insertField kv xs

/-- Sort an object's fields by key, as `json.Marshal` emits them. -/
def sortFields (m : List (String × JVal)) : List (String × JVal) :=
  m.foldr insertField []

/-- JSON escape of one character (`json.Marshal` default: also escapes
`<`, `>`, `&` as unicode sequences). -/
def escapeJSONChar (c : Char) : List Char :=
  if c = '"' then ['\\', '"']
  else if c = '\\' then ['\\', '\\']
  else if c = '\n' then ['\\', 'n']
  else if c = '\t' then ['\\', 't']
  else if c = '\r' then ['\\', 'r']
  else if c = '<' then ['\\', 'u', '0', '0', '3', 'c']
  else if c = '>' then ['\\', 'u', '0', '0', '3', 'e']
  else if c = '&' then ['\\', 'u', '0', '0', '2', '6']
  else [c]

/-- A JSON string literal: quoted and escaped. -/
def jsonQuote (s : String) : String :=
  String.mk ('"' :: s.data.foldr (fun c acc => escapeJSONChar c ++ acc) ['"'])

/-- Separator-joined concatenation of rendered pieces. -/
def joinSep (sep : String) : List String → String
  | [] => ""
  | [x] => x
  | x :: y :: xs => x ++ sep ++ joinSep sep (y :: xs)

/-- The string "\x7b". -/
def lbraceStr : String := String.mk [lbrace]

/-- The string "\x7d". -/
def rbraceStr : String := String.mk [rbrace]

/-- `json.Marshal(documentMap)` rendered to a string; `fuel` bounds the
recursion depth. -/
def marshal : Nat → JVal → String
  | 0, _ => ""
  | fuel + 1, v =>
    match v with
    | JVal.null => "null"
    | JVal.bool true => "true"
    | JVal.bool false => "false"
    | JVal.num n => String.mk (intChars n)
    | JVal.str s => jsonQuote s
    | JVal.arr xs => "[" ++ joinSep "," (xs.map (marshal fuel)) ++ "]"
    | JVal.obj m =>
      lbraceStr
        ++ joinSep ","
            ((sortFields m).map (fun kv => jsonQuote kv.1 ++ ":" ++ marshal fuel kv.2))
        ++ rbraceStr

/-- `idString := fmt.Sprintf("%v", id)` on a decoded JSON value: strings
print bare, booleans as `true`/`false`, numbers in decimal, slices
space-separated in brackets, maps as `map[k:v ...]` sorted; `fuel` bounds
the recursion depth. -/
def goFormat : Nat → JVal → String
  | 0, _ => ""
  | fuel + 1, v =>
    match v with
    | JVal.null => "<nil>"
    | JVal.bool true => "true"
    | JVal.bool false => "false"
    | JVal.num n => String.mk (intChars n)
    | JVal.str s => s
    | JVal.arr xs => "[" ++ joinSep " " (xs.map (goFormat fuel)) ++ "]"
    | JVal.obj m =>
      "map["
        ++ joinSep " " ((sortFields m).map (fun kv => kv.1 ++ ":" ++ goFormat fuel kv.2))
        ++ "]"

/-! ## The per-line decode loop of `Bulk` (bulk.go lines 107-176)

`var f interface\x7b\x7d` is declared OUTSIDE the loop, so a failed
`json.Unmarshal` leaves the previous iteration's value in `f`; the loop then
unconditionally runs the type assertion `f.(map[string]interface\x7b\x7d)`,
which panics when `f` is not a map (in particular when `f` is still `nil`
because no earlier line decoded successfully, or when the line parsed to a
non-object value). -/

/-- One item handed to `indexer.Add` (`opensearchutil.BulkIndexerItem`):
the action, the extracted document id, and the marshalled body. -/
structure BulkItem where
  action : String
  documentID : String
  body : String
  deriving DecidableEq

/-- Observable log/print events of the decode loop. -/
inductive LogEvent where
  | unmarshalError : LogEvent
  | missingID : String → LogEvent
  | indexing : String → LogEvent
  deriving DecidableEq

/-- Result of one loop iteration: either the loop continues with the new
value of `f`, the emitted log events and at most one indexed item, or the
process crashes with a runtime panic at the map type assertion. -/
inductive StepResult where
  | next : JVal → List LogEvent → Option BulkItem → StepResult
  | crashed : List LogEvent → StepResult

/-- The body of the loop after `json.Unmarshal` has run: the map type
assertion, the id lookup and nil check (`documentMap[idField]` is `nil`
both when the key is absent and when its value is JSON `null`), the id
coercion, the `delete` of the id field, the re-marshal, and the
`indexer.Add` item construction.  `fuel` is the rendering-depth bound
(the caller passes `line length + 8`, which exceeds the depth of any
value decoded from the line). -/
def processDecoded (idField action : String) (fuel : Nat) (logs : List LogEvent)
    (f : JVal) : StepResult :=
  match f with
  | JVal.obj m =>
    match List.lookup idField m with
    | none => StepResult.next (JVal.obj m) (logs ++ [LogEvent.missingID idField]) none
    | some JVal.null => StepResult.next (JVal.obj m) (logs ++ [LogEvent.missingID idField]) none
    | some v =>
      let idString := goFormat fuel v
      let m2 := mapDelete m idField
      StepResult.next (JVal.obj m2) (logs ++ [LogEvent.indexing idString])
        (some ⟨action, idString, marshal fuel (JVal.obj m2)⟩)
  | _ => StepResult.crashed logs

/-- One iteration of the scanner loop on input `line`, with `f` the value
left in the shared `interface\x7b\x7d` variable by earlier iterations
(`JVal.null` models the initial `nil`). -/
def processLine (idField action : String) (f : JVal) (line : String) : StepResult :=
  match parseJSON line with
  | some parsed => processDecoded idField action (line.length + 8) [] parsed
  | none => processDecoded idField action (line.length + 8) [LogEvent.unmarshalError] f

/-- Terminal outcome of the read loop: all items handed to the indexer and
all log events, ending either in a crash (runtime panic — no statistics
report follows) or in normal completion (the `Close`/`Stats` report runs). -/
inductive RunResult where
  | crashed : List BulkItem → List LogEvent → RunResult
  | finished : List BulkItem → List LogEvent → RunResult
  deriving DecidableEq

/-- Prepend one iteration's item and log events to the outcome of the rest
of the loop. -/
def appendRun (item : Option BulkItem) (logs : List LogEvent) : RunResult → RunResult
  | RunResult.crashed items logs2 => RunResult.crashed (item.toList ++ items) (logs ++ logs2)
  | RunResult.finished items logs2 => RunResult.finished (item.toList ++ items) (logs ++ logs2)

/-- The scanner loop over the remaining input lines, threading `f`. -/
def runLines (idField action : String) : JVal → List String → RunResult
  | _, [] => RunResult.finished [] []
  | f, l :: ls =>
    match processLine idField action f l with
    | StepResult.crashed logs => RunResult.crashed [] logs
    | StepResult.next f2 logs item => appendRun item logs (runLines idField action f2 ls)

/-- The whole read loop of `Bulk`, started with `f = nil`. -/
def runBulk (idField action : String) (lines : List String) : RunResult :=
  runLines idField action JVal.null lines

/-- Whether the run reaches the final `indexer.Stats()` report (a crashed
run terminates first). -/
def producesReport : RunResult → Bool
  | RunResult.crashed _ _ => false
  | RunResult.finished _ _ => true

/-- Items produced by a run. -/
def runItems : RunResult → List BulkItem
  | RunResult.crashed items _ => items
  | RunResult.finished items _ => items

/-- Log events produced by a run. -/
def runLogs : RunResult → List LogEvent
  | RunResult.crashed _ logs => logs
  | RunResult.finished _ logs => logs

/-! ## Client retry configuration (bulk.go lines 73-85)

`opensearch.NewClient` is configured with `RetryOnStatus: [502, 503, 504,
429]`, `RetryBackoff: func(i int) time.Duration \x7b return time.Duration(i) *
100 * time.Millisecond \x7d`, and `MaxRetries: 5`. -/

/-- `RetryOnStatus`: the transient status codes eligible for retry. -/
def retryOnStatus : List Nat := [502, 503, 504, 429]

/-- `MaxRetries`: the maximum attempt count. -/
def maxRetries : Nat := 5

/-- One millisecond in nanoseconds (`time.Millisecond`). -/
def millisecondNanos : Nat := 1000000

/-- `RetryBackoff`: the delay before retry attempt `i`, in nanoseconds
(`time.Duration(i) * 100 * time.Millisecond`). -/
def retryBackoff (i : Nat) : Nat := i * 100 * millisecondNanos

/-- Modelled from the spec: the transport retries a request (spec 4.3
`shouldRetry`) exactly when the response status is in the configured
`RetryOnStatus` list and the attempt number has not passed the configured
`MaxRetries`; the client library itself is an external collaborator, its
configuration values are the ones the source passes. -/
def shouldRetry (attempt status : Nat) : Bool :=
  decide (attempt ≤ maxRetries) && retryOnStatus.contains status

/-! ## The final statistics report (bulk.go lines 179-192)

After `indexer.Close`, `stats := indexer.Stats()`; if `stats.NumFailed > 0`
the run logs via `log.Fatalf` (which prints the message with both counts
and exits the process with a non-zero status), otherwise it logs success
and falls through to the final `fmt.Printf` summary. -/

/-- The counters read from `indexer.Stats()` (`RunStatistics`). -/
structure RunStats where
  numFlushed : Nat
  numFailed : Nat
  numRetried : Nat
  deriving DecidableEq

/-- Process exit intent of the report step: `log.Fatalf` exits non-zero. -/
inductive ExitStatus where
  | success : ExitStatus
  | fatal : ExitStatus
  deriving DecidableEq

/-- The report step: the exit intent and the printed lines. -/
def reportStats (s : RunStats) : ExitStatus × List String :=
  if s.numFailed > 0 then
    (ExitStatus.fatal,
     ["Indexed [" ++ toString s.numFlushed ++ "] documents with ["
        ++ toString s.numFailed ++ "] errors"])
  else
    (ExitStatus.success,
     ["Successfully indexed [" ++ toString s.numFlushed ++ "] documents",
      "Indexed [" ++ toString s.numFlushed ++ "] documents with ["
        ++ toString s.numFailed ++ "] errors"])

/-- Whether a decoded JSON value is an object (a Go map), i.e. whether the
type assertion `f.(map[string]interface\x7b\x7d)` succeeds on it. -/
def isObjVal : JVal → Bool
  | JVal.obj _ => true
  | _ => false

/-- Structural equality of two indexer items: same action, same document
id string, same serialized body. -/
def itemEq (a b : BulkItem) : Bool :=
  a.action == b.action && a.documentID == b.documentID && a.body == b.body

/-- Pointwise structural equality of two item lists. -/
def itemsEq : List BulkItem → List BulkItem → Bool
  | [], [] => true
  | a :: as, b :: bs => itemEq a b && itemsEq as bs
  | _, _ => false

/-- The items obtained by decoding `line` in an independent run starting
from fresh decode state (`f = nil`). -/
def decodeFresh (idField action line : String) : List BulkItem :=
  runItems (runBulk idField action [line])

/-! ## Properties of the decimal rendering -/

theorem digitChar_isDigit {d : Nat} (h : d < 10) : (digitChar d).isDigit = true := by
  interval_cases d <;> decide

theorem digitChar_toNat {d : Nat} (h : d < 10) : (digitChar d).toNat - 48 = d := by
  interval_cases d <;> decide

theorem digitChar_ne_dot {d : Nat} (h : d < 10) : digitChar d ≠ '.' := by
  interval_cases d <;> decide

theorem parseDigitsAcc_append (acc : Nat) (xs ys : List Char) :
    parseDigitsAcc acc (xs ++ ys) =
      (parseDigitsAcc acc xs).bind (fun a => parseDigitsAcc a ys) := by
  induction xs generalizing acc with
  | nil => simp [parseDigitsAcc]
  | cons c cs ih =>
    simp only [List.cons_append, parseDigitsAcc]
    by_cases h : c.isDigit
    · simp [h, ih]
    · simp [h]

theorem parseDigitsAcc_natCharsF (fuel : Nat) :
    ∀ n acc, n < fuel →
      parseDigitsAcc acc (natCharsF fuel n) =
        some (acc * 10 ^ (natCharsF fuel n).length + n) := by
  induction fuel with
  | zero => intro n acc h; omega
  | succ fuel ih =>
    intro n acc _
    by_cases h10 : n < 10
    · simp [natCharsF, h10, parseDigitsAcc, digitChar_isDigit h10, digitChar_toNat h10]
    · have hdiv : n / 10 < fuel := by
        have h1 : n / 10 < n := Nat.div_lt_self (by omega) (by omega)
        omega
      have hmod : n % 10 < 10 := Nat.mod_lt _ (by omega)
      simp only [natCharsF, if_neg h10]
      rw [parseDigitsAcc_append, ih (n / 10) acc hdiv]
      simp only [Option.bind_some, parseDigitsAcc, digitChar_isDigit hmod,
        digitChar_toNat hmod, if_true, List.length_append, List.length_cons,
        List.length_nil]
      refine congrArg some ?_
      have hdm : 10 * (n / 10) + n % 10 = n := Nat.div_add_mod n 10
      calc (acc * 10 ^ (natCharsF fuel (n / 10)).length + n / 10) * 10 + n % 10
          = acc * (10 ^ (natCharsF fuel (n / 10)).length * 10)
              + (10 * (n / 10) + n % 10) := by ring
        _ = acc * 10 ^ ((natCharsF fuel (n / 10)).length + (0 + 1)) + n := by
              rw [hdm, pow_succ]

theorem natCharsF_ne_nil (fuel n : Nat) (h : n < fuel) : natCharsF fuel n ≠ [] := by
  cases fuel with
  | zero => omega
  | succ fuel =>
    by_cases h10 : n < 10 <;> simp [natCharsF, h10]

theorem parseNatChars_natChars (n : Nat) : parseNatChars (natChars n) = some n := by
  have hne := natCharsF_ne_nil (n + 1) n (by omega)
  have hval := parseDigitsAcc_natCharsF (n + 1) n 0 (by omega)
  unfold natChars
  cases hcs : natCharsF (n + 1) n with
  | nil => exact absurd hcs hne
  | cons c cs =>
    rw [hcs] at hval
    simpa [parseNatChars] using hval

theorem mem_natCharsF_isDigit (fuel : Nat) :
    ∀ n c, c ∈ natCharsF fuel n → c.isDigit = true := by
  induction fuel with
  | zero => intro n c h; simp [natCharsF] at h
  | succ fuel ih =>
    intro n c h
    by_cases h10 : n < 10
    · simp [natCharsF, h10] at h
      subst h; exact digitChar_isDigit h10
    · simp only [natCharsF, if_neg h10, List.mem_append, List.mem_singleton] at h
      rcases h with h | h
      · exact ih _ _ h
      · subst h; exact digitChar_isDigit (Nat.mod_lt _ (by omega))

theorem dot_not_mem_intChars (n : Int) : '.' ∉ intChars n := by
  intro hmem
  unfold intChars at hmem
  by_cases hneg : n < 0
  · simp only [if_pos hneg, List.mem_cons] at hmem
    rcases hmem with h | h
    · exact absurd h (by decide)
    · have := mem_natCharsF_isDigit (n.natAbs + 1) n.natAbs '.' h
      simp [Char.isDigit] at this
  · simp only [if_neg hneg] at hmem
    have := mem_natCharsF_isDigit (n.toNat + 1) n.toNat '.' hmem
    simp [Char.isDigit] at this

theorem natChars_head_digit (n : Nat) :
    ∀ c cs, natChars n = c :: cs → c.isDigit = true := by
  intro c cs h
  have : c ∈ natChars n := by rw [h]; exact List.mem_cons_self _ _
  exact mem_natCharsF_isDigit _ _ _ this

theorem parseIntChars_cons_digit {c : Char} (cs : List Char) (h : c.isDigit = true) :
    parseIntChars (c :: cs) = (parseNatChars (c :: cs)).map (fun n => (n : Int)) := by
  have hcne : c ≠ '-' := by
    intro he; subst he; simp [Char.isDigit] at h
  unfold parseIntChars
  split
  · rename_i heq
    injection heq with h1 _
    exact absurd h1 hcne
  · rfl

theorem parseIntChars_intChars (n : Int) : parseIntChars (intChars n) = some n := by
  unfold intChars
  by_cases hneg : n < 0
  · rw [if_pos hneg]
    have h1 : parseIntChars ('-' :: natChars n.natAbs)
        = (parseNatChars (natChars n.natAbs)).map (fun m => -(m : Int)) := rfl
    rw [h1, parseNatChars_natChars]
    exact congrArg some (show -(n.natAbs : Int) = n by omega)
  · rw [if_neg hneg]
    cases hcs : natChars n.toNat with
    | nil =>
      exact absurd hcs (natCharsF_ne_nil _ _ (by omega))
    | cons c cs =>
      have hdig := natChars_head_digit n.toNat c cs hcs
      rw [parseIntChars_cons_digit cs hdig, ← hcs, parseNatChars_natChars]
      exact congrArg some (show ((n.toNat : Nat) : Int) = n by omega)

/-! ## Behavior of the decode loop -/

theorem processDecoded_not_obj (idField action : String) (fuel : Nat)
    (logs : List LogEvent) (f : JVal) (h : isObjVal f = false) :
    processDecoded idField action fuel logs f = StepResult.crashed logs := by
  cases f with
  | obj m => simp [isObjVal] at h
  | null => rfl
  | bool b => rfl
  | num n => rfl
  | str s => rfl
  | arr xs => rfl

theorem producesReport_appendRun (item : Option BulkItem) (logs : List LogEvent)
    (r : RunResult) : producesReport (appendRun item logs r) = producesReport r := by
  cases r <;> rfl

theorem runLines_no_report_of_bad_line (idField action : String) :
    ∀ (lines : List String) (f : JVal),
      (∃ l ∈ lines, ∃ v, parseJSON l = some v ∧ isObjVal v = false) →
      producesReport (runLines idField action f lines) = false := by
  intro lines
  induction lines with
  | nil =>
    intro f h
    simp at h
  | cons x ls ih =>
    intro f h
    rcases h with ⟨l, hmem, v, hparse, hnotobj⟩
    rcases List.mem_cons.mp hmem with heq | hmem2
    · subst heq
      simp only [runLines, processLine, hparse,
        processDecoded_not_obj idField action _ _ v hnotobj]
      rfl
    · cases hstep : processLine idField action f x with
      | crashed logs => simp only [runLines, hstep]; rfl
      | next f2 logs item =>
        simp only [runLines, hstep, producesReport_appendRun]
        exact ih f2 ⟨l, hmem2, v, hparse, hnotobj⟩

theorem not_mem_mapDelete_keys (m : List (String × JVal)) (k : String) :
    k ∉ (mapDelete m k).map Prod.fst := by
  intro hmem
  rcases List.mem_map.mp hmem with ⟨kv, hkv, hfst⟩
  have hpred := (List.mem_filter.mp hkv).2
  rw [hfst] at hpred
  simp at hpred

theorem itemEq_refl (a : BulkItem) : itemEq a a = true := by
  simp [itemEq]

theorem itemsEq_refl (l : List BulkItem) : itemsEq l l = true := by
  induction l with
  | nil => rfl
  | cons a as ih => simp [itemsEq, itemEq_refl, ih]

/-! ## The claims -/

/-- C1 (code-bug evaluation): the spec says a line that is not valid JSON
is logged and skipped and the pipeline continues; the code logs the
unmarshal error but does not skip the iteration, so with no previously
decoded object in the shared `f` variable the map type assertion panics.
Evaluating the loop at the failing input — first line `not json`, followed
by a perfectly valid line — shows the run crashing after the unmarshal
error log, producing no item, never reaching the second line and never
reaching the statistics report. -/
theorem c1_invalid_first_line_crashes :
    runBulk "id" "index" ["not json", "\x7b\"id\":\"1\",\"title\":\"x\"\x7d"] =
        RunResult.crashed [] [LogEvent.unmarshalError] ∧
    producesReport (runBulk "id" "index" ["not json", "\x7b\"id\":\"1\",\"title\":\"x\"\x7d"])
        = false :=
  ⟨rfl, rfl⟩

/-- C2: if the first input line fails JSON parsing (the shared `f` is
still `nil`), or any input line parses to a top-level value that is not an
object, the run crashes at the map type assertion and terminates without
producing the final statistics report. -/
theorem c2_nonobject_line_crashes (idField action : String) (lines : List String)
    (h : (∃ first rest, lines = first :: rest ∧ parseJSON first = none) ∨
         (∃ l ∈ lines, ∃ v, parseJSON l = some v ∧ isObjVal v = false)) :
    producesReport (runBulk idField action lines) = false := by
  rcases h with ⟨first, rest, hl, hparse⟩ | hbad
  · subst hl
    unfold runBulk
    simp only [runLines, processLine, hparse]
    rfl
  · exact runLines_no_report_of_bad_line idField action lines JVal.null hbad

/-- Witness for C2 at the concrete input line `[1]` (an array, not an
object): the run crashes before the report. -/
theorem c2_nonobject_line_crashes_witness :
    ((∃ first rest, ["[1]"] = first :: rest ∧ parseJSON first = none) ∨
     (∃ l ∈ ["[1]"], ∃ v, parseJSON l = some v ∧ isObjVal v = false)) ∧
    producesReport (runBulk "id" "index" ["[1]"]) = false :=
  have h : (∃ first rest, ["[1]"] = first :: rest ∧ parseJSON first = none) ∨
      (∃ l ∈ ["[1]"], ∃ v, parseJSON l = some v ∧ isObjVal v = false) :=
    Or.inr ⟨"[1]", List.mem_singleton.mpr rfl, JVal.arr [JVal.num 1], rfl, rfl⟩
  ⟨h, c2_nonobject_line_crashes "id" "index" ["[1]"] h⟩

/-- C3: for every input line that parses to a JSON object with a non-null
value `v` at `idField`, the iteration produces exactly one item whose
document id is the `%v` coercion of `v` and whose body is the marshalled
object with the `idField` key deleted; the deleted map contains no key
equal to `idField`, so the serialized body never duplicates the id. -/
theorem c3_id_field_removed (idField action line : String) (f : JVal)
    (m : List (String × JVal)) (v : JVal)
    (hparse : parseJSON line = some (JVal.obj m))
    (hlook : List.lookup idField m = some v)
    (hv : v ≠ JVal.null) :
    processLine idField action f line =
      StepResult.next (JVal.obj (mapDelete m idField))
        [LogEvent.indexing (goFormat (line.length + 8) v)]
        (some ⟨action, goFormat (line.length + 8) v,
               marshal (line.length + 8) (JVal.obj (mapDelete m idField))⟩) ∧
    idField ∉ (mapDelete m idField).map Prod.fst := by
  refine ⟨?_, not_mem_mapDelete_keys m idField⟩
  cases v with
  | null => exact absurd rfl hv
  | bool b => simp only [processLine, hparse, processDecoded, hlook, List.nil_append]
  | num n => simp only [processLine, hparse, processDecoded, hlook, List.nil_append]
  | str s => simp only [processLine, hparse, processDecoded, hlook, List.nil_append]
  | arr xs => simp only [processLine, hparse, processDecoded, hlook, List.nil_append]
  | obj m2 => simp only [processLine, hparse, processDecoded, hlook, List.nil_append]

/-- Witness for C3 at the concrete line `\x7b"id":"1","title":"x"\x7d` with
`idField = id`. -/
theorem c3_id_field_removed_witness :
    parseJSON "\x7b\"id\":\"1\",\"title\":\"x\"\x7d" =
      some (JVal.obj [("id", JVal.str "1"), ("title", JVal.str "x")]) ∧
    List.lookup "id" [("id", JVal.str "1"), ("title", JVal.str "x")] =
      some (JVal.str "1") ∧
    JVal.str "1" ≠ JVal.null ∧
    (processLine "id" "index" JVal.null "\x7b\"id\":\"1\",\"title\":\"x\"\x7d" =
      StepResult.next
        (JVal.obj (mapDelete [("id", JVal.str "1"), ("title", JVal.str "x")] "id"))
        [LogEvent.indexing
          (goFormat ("\x7b\"id\":\"1\",\"title\":\"x\"\x7d".length + 8) (JVal.str "1"))]
        (some ⟨"index",
               goFormat ("\x7b\"id\":\"1\",\"title\":\"x\"\x7d".length + 8) (JVal.str "1"),
               marshal ("\x7b\"id\":\"1\",\"title\":\"x\"\x7d".length + 8)
                 (JVal.obj (mapDelete [("id", JVal.str "1"), ("title", JVal.str "x")] "id"))⟩) ∧
     "id" ∉ (mapDelete [("id", JVal.str "1"), ("title", JVal.str "x")] "id").map Prod.fst) :=
  ⟨rfl, rfl, fun h => JVal.noConfusion h,
   c3_id_field_removed "id" "index" "\x7b\"id\":\"1\",\"title\":\"x\"\x7d" JVal.null
     [("id", JVal.str "1"), ("title", JVal.str "x")] (JVal.str "1")
     rfl rfl (fun h => JVal.noConfusion h)⟩

/-- C4: for every input line that parses to a JSON object with no value at
`idField` (key absent) or a JSON-null value there (`documentMap[idField]`
is `nil` in both cases), the iteration produces no item, logs exactly one
missing-id warning, and continues to the next line with the decoded object
left in `f`. -/
theorem c4_missing_id_skipped (idField action line : String) (f : JVal)
    (m : List (String × JVal))
    (hparse : parseJSON line = some (JVal.obj m))
    (hmiss : List.lookup idField m = none ∨ List.lookup idField m = some JVal.null) :
    processLine idField action f line =
      StepResult.next (JVal.obj m) [LogEvent.missingID idField] none := by
  rcases hmiss with h | h <;>
    simp only [processLine, hparse, processDecoded, h, List.nil_append]

/-- Witness for C4: end-to-end scenario B, input `\x7b"title":"x"\x7d` with
`idField = id`. -/
theorem c4_missing_id_skipped_witness :
    parseJSON "\x7b\"title\":\"x\"\x7d" = some (JVal.obj [("title", JVal.str "x")]) ∧
    List.lookup "id" [("title", JVal.str "x")] = none ∧
    processLine "id" "index" JVal.null "\x7b\"title\":\"x\"\x7d" =
      StepResult.next (JVal.obj [("title", JVal.str "x")]) [LogEvent.missingID "id"] none :=
  ⟨rfl, rfl,
   c4_missing_id_skipped "id" "index" "\x7b\"title\":\"x\"\x7d" JVal.null
     [("title", JVal.str "x")] rfl (Or.inl rfl)⟩

/-- C5: the retry policy of the constructed client: a retry happens exactly
for the transient statuses 429, 502, 503, 504 and while the attempt number
is at most the configured maximum of 5, and the backoff delay for attempt
`i` is `i * 100` milliseconds (linear), i.e. `i * 100000000` nanoseconds. -/
theorem c5_retry_policy :
    (∀ attempt status : Nat,
        shouldRetry attempt status = true ↔
          ((status = 429 ∨ status = 502 ∨ status = 503 ∨ status = 504) ∧ attempt ≤ 5)) ∧
    (∀ i : Nat, retryBackoff i = i * 100000000) ∧
    maxRetries = 5 := by
  refine ⟨?_, fun i => ?_, rfl⟩
  · intro attempt status
    simp only [shouldRetry, retryOnStatus, maxRetries, Bool.and_eq_true,
      decide_eq_true_eq, List.contains_eq_any_beq, List.any_cons, List.any_nil,
      Bool.or_eq_true, beq_iff_eq, Bool.or_false]
    tauto
  · simp only [retryBackoff, millisecondNanos]
    ring

/-- C6: the coercion of an extracted identifier value to the id string via
`fmt.Sprintf("%v", id)` is the value's canonical textual representation for
each original JSON type: a string renders as itself, booleans as `true` /
`false`, and a JSON integer (in the range Go's float64 represents exactly)
renders as its plain decimal digits, which contain no fractional point and
parse back to the original value. -/
theorem c6_id_coercion :
    (∀ fuel : Nat, ∀ s : String, goFormat (fuel + 1) (JVal.str s) = s) ∧
    (∀ fuel : Nat,
        goFormat (fuel + 1) (JVal.bool true) = "true" ∧
        goFormat (fuel + 1) (JVal.bool false) = "false") ∧
    (∀ fuel : Nat, ∀ n : Int, n.natAbs ≤ 2 ^ 53 →
        goFormat (fuel + 1) (JVal.num n) = String.mk (intChars n) ∧
        '.' ∉ intChars n ∧
        parseIntChars (intChars n) = some n) :=
  ⟨fun _ _ => rfl,
   fun _ => ⟨rfl, rfl⟩,
   fun _ n _ => ⟨rfl, dot_not_mem_intChars n, parseIntChars_intChars n⟩⟩

/-- Witness for C6 at the concrete integer identifier 42. -/
theorem c6_id_coercion_witness :
    (42 : Int).natAbs ≤ 2 ^ 53 ∧
    (goFormat (0 + 1) (JVal.num 42) = String.mk (intChars 42) ∧
     '.' ∉ intChars 42 ∧
     parseIntChars (intChars 42) = some 42) :=
  ⟨by decide, c6_id_coercion.2.2 0 42 (by decide)⟩

/-- C7: after the indexer is closed, the report step exits non-zero exactly
when `numFailed > 0` (via `log.Fatalf`), still printing both the flushed
and failed counts in that case; with `numFailed = 0` it reports full
success, so a run with any permanently failed item is distinguishable by
exit status from a fully successful run. -/
theorem c7_report_exit (s : RunStats) :
    ((reportStats s).1 = ExitStatus.fatal ↔ 0 < s.numFailed) ∧
    (0 < s.numFailed →
      (reportStats s).2 =
        ["Indexed [" ++ toString s.numFlushed ++ "] documents with ["
           ++ toString s.numFailed ++ "] errors"]) ∧
    (s.numFailed = 0 →
      (reportStats s).1 = ExitStatus.success ∧
      (reportStats s).2 =
        ["Successfully indexed [" ++ toString s.numFlushed ++ "] documents",
         "Indexed [" ++ toString s.numFlushed ++ "] documents with ["
           ++ toString s.numFailed ++ "] errors"]) := by
  unfold reportStats
  by_cases h : s.numFailed > 0
  · simp [h]
    omega
  · simp [h]

/-- Witness for C7: a run with one failure exits fatally printing both
counts; a run with no failures reports success. -/
theorem c7_report_exit_witness :
    0 < (RunStats.mk 3 1 0).numFailed ∧
    (reportStats (RunStats.mk 3 1 0)).1 = ExitStatus.fatal ∧
    (reportStats (RunStats.mk 3 1 0)).2 =
      ["Indexed [" ++ toString (RunStats.mk 3 1 0).numFlushed ++ "] documents with ["
         ++ toString (RunStats.mk 3 1 0).numFailed ++ "] errors"] ∧
    (RunStats.mk 7 0 0).numFailed = 0 ∧
    (reportStats (RunStats.mk 7 0 0)).1 = ExitStatus.success :=
  ⟨by decide,
   (c7_report_exit (RunStats.mk 3 1 0)).1.mpr (by decide),
   (c7_report_exit (RunStats.mk 3 1 0)).2.1 (by decide),
   rfl,
   ((c7_report_exit (RunStats.mk 7 0 0)).2.2 rfl).1⟩

/-- C8: end-to-end scenario A: decoding the input line
`\x7b"id":"1","title":"x"\x7d` with `idField = id` produces exactly one item
whose document id is the string `1` and whose body is exactly
`\x7b"title":"x"\x7d`, the id field absent. -/
theorem c8_scenario_a :
    runBulk "id" "index" ["\x7b\"id\":\"1\",\"title\":\"x\"\x7d"] =
      RunResult.finished [⟨"index", "1", "\x7b\"title\":\"x\"\x7d"⟩]
        [LogEvent.indexing "1"] := rfl

/-- C9 (code-bug evaluation): the spec says a per-item decode failure never
stops ingestion of subsequent items and only a fatal startup condition
halts the run; but a decode failure on a line while no previously decoded
object sits in the shared `f` variable panics the process at the map type
assertion mid-run.  Evaluating at the failing input — invalid line
followed by a valid, indexable line — shows the run crashing and the
second line's item never being produced. -/
theorem c9_per_item_failure_halts :
    runBulk "id" "index" ["\x7b", "\x7b\"id\":\"7\",\"t\":\"y\"\x7d"] =
        RunResult.crashed [] [LogEvent.unmarshalError] ∧
    runItems (runBulk "id" "index" ["\x7b", "\x7b\"id\":\"7\",\"t\":\"y\"\x7d"]) = [] ∧
    runBulk "id" "index" ["\x7b\"id\":\"7\",\"t\":\"y\"\x7d"] =
      RunResult.finished [⟨"index", "7", "\x7b\"t\":\"y\"\x7d"⟩]
        [LogEvent.indexing "7"] :=
  ⟨rfl, rfl, rfl⟩

/-- C10: decoding the same line twice in two independent runs, each
starting from fresh decode state, yields structurally identical items
(same action, id string and serialized body).  In this embedding one
decode iteration is a pure function of the id field, the action, the line
and the initial state, so two fresh runs are equal by reflexivity. -/
theorem c10_decode_idempotent (idField action line : String) :
    itemsEq (decodeFresh idField action line) (decodeFresh idField action line) = true :=
  itemsEq_refl (decodeFresh idField action line)
